import Mathlib

set_option maxRecDepth 8192

/-!
Shallow embedding of the chapter/page lifecycle core of the manga-reader
service: the postgres chapter repository (`ChapterRepo`) and the lifecycle
manager (`ChapterService` in internal/service/chapter.go).

Modelling conventions:
* Go `int` fields are `Int`.
* Chapter numbers (`float64` in Go, `DECIMAL(5,2)` in the schema) are
  modelled as an integer count of hundredths, so `1.50` is `150`; the
  `%.2f` rendering is exact on such values.
* The database is a record of row lists; `SERIAL` id sequences are the
  `next…Id` counters.  `UNIQUE` and foreign-key constraints of
  scripts/init.sql are checked explicitly where the corresponding Go
  statement would surface them as an insert/update error.
* The filesystem is a record of directory paths and (path, bytes) files,
  relative to the images root (`s.imagesPath` is a constant prefix shared
  by every operation, so it is dropped).  I/O failure of `os.MkdirAll`,
  `os.WriteFile`, `os.Rename` and `os.Remove` is fault-injected through
  boolean fields, matching the spec's `StorageError` cases.
* Each repository transaction (`BeginTx … Commit`) is one total Lean
  function returning `Except`; an error result leaves the database value
  unchanged, which is exactly the all-or-nothing commit semantics.
* Service operations return `World × Except Err α`: the returned world
  carries filesystem side effects that persist even when the operation
  returns an error (e.g. a directory created before a failing insert).
-/

/-- Error taxonomy of the spec (§7), used as the carrier for Go `error`
values: validation, not-found, conflict (unique-constraint) and storage
(filesystem I/O) failures, each with the Go format message. -/
inductive Err where
  | validation (msg : String)
  | notFound (msg : String)
  | conflict (msg : String)
  | storage (msg : String)
deriving DecidableEq, Repr

/-- Row of the `chapters` table / domain.Chapter.  `number` is in
hundredths (see module comment). -/
structure Chapter where
  id : Int
  mangaId : Int
  number : Int
  title : String
  pageCount : Int
deriving DecidableEq, Repr

/-- Row of the `pages` table / domain.Page. -/
structure Page where
  id : Int
  chapterId : Int
  number : Int
  imageUrl : String
deriving DecidableEq, Repr

/-- Relational store: manga ids (for the foreign key / existence check),
chapter rows, page rows, and the two SERIAL sequences. -/
structure DB where
  mangas : List Int
  chapters : List Chapter
  pages : List Page
  nextChapterId : Int
  nextPageId : Int
deriving DecidableEq, Repr

/-- Filesystem under the images root: directories, files, and fault
injection flags for the four `os` calls the service makes. -/
structure FS where
  dirs : List String
  files : List (String × List Nat)
  mkdirFails : Bool
  writeFails : Bool
  renameFails : Bool
  removeFails : Bool
deriving DecidableEq, Repr

/-- The two stores the lifecycle manager keeps consistent. -/
structure World where
  db : DB
  fs : FS
deriving DecidableEq, Repr

/-- Left-pad a string with zeros to width `w` (the padding of `%03d` and
the fraction part of `%.2f`). -/
def padZeros (w : Nat) (s : String) : String :=
  if s.length < w then String.mk (List.replicate (w - s.length) '0') ++ s else s

/-- Go `fmt.Sprintf("%03d", n)`: zero-pad to total width 3 (a sign counts
towards the width, as in Go). -/
def pad3 (n : Int) : String :=
  if n < 0 then "-" ++ padZeros 2 (toString n.natAbs) else padZeros 3 (toString n.natAbs)

/-- Go `fmt.Sprintf("%.2f", x)` on a chapter number held in hundredths:
render with exactly two decimals. -/
def fmt2 (n : Int) : String :=
  (if n < 0 then "-" else "") ++ toString (n.natAbs / 100) ++ "." ++ padZeros 2 (toString (n.natAbs % 100))

/-- Directory of a chapter's images, as in `createChapterImageDir` /
`updateChapterImageDir` / `deleteChapterImageDir`:
`fmt.Sprintf("manga_%d/chapter_%.2f", mangaID, chapterNumber)`. -/
def chapterDirPath (mangaId chapterNumber : Int) : String :=
  "manga_" ++ toString mangaId ++ "/chapter_" ++ fmt2 chapterNumber

/-- Deterministic page-image path of the source,
`fmt.Sprintf("manga_%d/chapter_%.2f/page_%03d.jpg", …)`. -/
def pagePath (mangaId chapterNumber pageNumber : Int) : String :=
  "manga_" ++ toString mangaId ++ "/chapter_" ++ fmt2 chapterNumber ++
    "/page_" ++ pad3 pageNumber ++ ".jpg"

/-- Modelled from the spec: the path pattern the spec states literally in
§4.1/§6, `series_<id>/chapter_<2-decimal>/page_<3-digit>.<ext>` (with the
reference extension `.jpg`).  Kept separate from `pagePath` so the two
derivations can be compared. -/
def specPagePath (seriesId chapterNumber pageNumber : Int) : String :=
  "series_" ++ toString seriesId ++ "/chapter_" ++ fmt2 chapterNumber ++
    "/page_" ++ pad3 pageNumber ++ ".jpg"

/-- Path rebasing applied by a directory rename: a file under the old
directory moves to the corresponding path under the new one. -/
def movePath (oldBase newBase p : String) : String :=
  if p.startsWith (oldBase ++ "/") then newBase ++ p.drop oldBase.length else p

/-- os.MkdirAll: succeeds (idempotently) unless mkdir I/O fails. -/
def fsMkdirAll (fs : FS) (path : String) : Except String FS :=
  if fs.mkdirFails then .error "mkdir failed"
  else if path ∈ fs.dirs then .ok fs
  else .ok { fs with dirs := fs.dirs ++ [path] }

/-- os.WriteFile: overwrites any file at `path` unless write I/O fails. -/
def fsWriteFile (fs : FS) (path : String) (data : List Nat) : Except String FS :=
  if fs.writeFails then .error "write failed"
  else .ok { fs with files := (fs.files.filter (fun e => !(e.1 == path))) ++ [(path, data)] }

/-- os.Rename on a directory: moves the directory entry and rebases every
file under it, unless rename I/O fails. -/
def fsRename (fs : FS) (oldPath newPath : String) : Except String FS :=
  if fs.renameFails then .error "rename failed"
  else .ok { fs with
    dirs := (fs.dirs.filter (fun d => !(d == oldPath))) ++ [newPath],
    files := fs.files.map (fun e => (movePath oldPath newPath e.1, e.2)) }

/-- os.Remove: fails on I/O fault or when the file is absent (ENOENT). -/
def fsRemoveFile (fs : FS) (path : String) : Except String FS :=
  if fs.removeFails then .error "remove failed"
  else if fs.files.any (fun e => e.1 == path) then
    .ok { fs with files := fs.files.filter (fun e => !(e.1 == path)) }
  else .error "file not found"

/-- Content stored at `path`, if any. -/
def fileAt (fs : FS) (path : String) : Option (List Nat) :=
  (fs.files.find? (fun e => e.1 == path)).map (fun e => e.2)

/-- ChapterRepo.GetByID: `SELECT … FROM chapters WHERE id = $1`. -/
def ChapterRepo.GetByID (db : DB) (id : Int) : Except Err Chapter :=
  match db.chapters.find? (fun c => c.id == id) with
  | some c => .ok c
  | none => .error (.notFound s!"chapter with id {id} not found")

/-- ChapterRepo.Create: `INSERT INTO chapters (manga_id, number, title,
page_count) … RETURNING id`.  The UNIQUE (manga_id, number) and the
manga foreign key of scripts/init.sql surface as insert errors. -/
def ChapterRepo.Create (db : DB) (c : Chapter) : Except Err (DB × Int) :=
  if db.chapters.any (fun x => x.mangaId == c.mangaId && x.number == c.number) then
    .error (.conflict "error inserting chapter: duplicate (manga_id, number)")
  else if !(db.mangas.any (fun m => m == c.mangaId)) then
    .error (.notFound "error inserting chapter: manga foreign key violated")
  else
    let id := db.nextChapterId
    .ok ({ db with
            chapters := db.chapters ++ [{ c with id := id }],
            nextChapterId := id + 1 }, id)

/-- ChapterRepo.Update: `UPDATE chapters SET number, title, page_count
WHERE id`; zero rows affected is reported as not-found, and a UNIQUE
(manga_id, number) violation as a conflict. -/
def ChapterRepo.Update (db : DB) (c : Chapter) : Except Err DB :=
  match db.chapters.find? (fun x => x.id == c.id) with
  | none => .error (.notFound s!"chapter with id {c.id} not found")
  | some existing =>
    if db.chapters.any (fun x => !(x.id == c.id) && x.mangaId == existing.mangaId && x.number == c.number) then
      .error (.conflict "error updating chapter: duplicate (manga_id, number)")
    else
      .ok { db with chapters := db.chapters.map (fun x =>
        if x.id == c.id then { x with number := c.number, title := c.title, pageCount := c.pageCount } else x) }

/-- ORDER BY number, as insertion sort on the page number. -/
def sortByNumber (l : List Page) : List Page :=
  l.insertionSort (fun p q => p.number ≤ q.number)

/-- ChapterRepo.GetPages: `SELECT … FROM pages WHERE chapter_id = $1
ORDER BY number`. -/
def ChapterRepo.GetPages (db : DB) (chapterId : Int) : List Page :=
  sortByNumber (db.pages.filter (fun p => p.chapterId == chapterId))

/-- ChapterRepo.AddPage: one transaction inserting the page row and then
recomputing the chapter's `page_count` as `COUNT(*)` for that chapter.
The UNIQUE (chapter_id, number) and the chapter foreign key surface as
insert errors, rolling the transaction back. -/
def ChapterRepo.AddPage (db : DB) (p : Page) : Except Err (DB × Int) :=
  if db.pages.any (fun q => q.chapterId == p.chapterId && q.number == p.number) then
    .error (.conflict "error inserting page: duplicate (chapter_id, number)")
  else if !(db.chapters.any (fun c => c.id == p.chapterId)) then
    .error (.notFound "error inserting page: chapter foreign key violated")
  else
    let id := db.nextPageId
    let pages2 := db.pages ++ [{ p with id := id }]
    let cnt : Int := ((pages2.filter (fun q => q.chapterId == p.chapterId)).length : Int)
    .ok ({ db with
            pages := pages2,
            chapters := db.chapters.map (fun c =>
              if c.id == p.chapterId then { c with pageCount := cnt } else c),
            nextPageId := id + 1 }, id)

/-- Rank of `x` in `xs` (zero-based), as assigned by joining on ids in the
repository's `ROW_NUMBER() OVER (ORDER BY number)` rewrite. -/
def idxOf (x : Int) : List Int → Nat
  | [] => 0
  | y :: ys => if y = x then 0 else idxOf x ys + 1

/-- ChapterRepo.DeletePage: one transaction that (a) looks up the owning
chapter id, (b) deletes the row, (c) renumbers the chapter's surviving
pages to ranks 1..N ordered by prior number (the `WITH ranked …` rewrite,
joined back on page id), and (d) recomputes `page_count`.  An error
result models the rollback: the database value is returned unchanged.
(The Go `rowsAffected == 0` branch after a successful chapter-id lookup
is unreachable in this single-writer model.) -/
def ChapterRepo.DeletePage (db : DB) (pid : Int) : Except Err DB :=
  match db.pages.find? (fun p => p.id == pid) with
  | none => .error (.notFound s!"page with id {pid} not found")
  | some target =>
    let cid := target.chapterId
    let survivors := db.pages.filter (fun p => !(p.id == pid))
    let rankedIds := (sortByNumber (survivors.filter (fun p => p.chapterId == cid))).map (fun p => p.id)
    let pages2 := survivors.map (fun p =>
      if p.chapterId == cid then { p with number := (idxOf p.id rankedIds : Int) + 1 } else p)
    let cnt : Int := ((pages2.filter (fun p => p.chapterId == cid)).length : Int)
    .ok { db with
          pages := pages2,
          chapters := db.chapters.map (fun c =>
            if c.id == cid then { c with pageCount := cnt } else c) }

/-- ChapterService.createChapterImageDir: MkdirAll of the chapter dir. -/
def ChapterService.createChapterImageDir (fs : FS) (mangaId chapterNumber : Int) : Except String FS :=
  fsMkdirAll fs (chapterDirPath mangaId chapterNumber)

/-- ChapterService.updateChapterImageDir: if the old directory is absent,
just MkdirAll the new one; otherwise rename old to new. -/
def ChapterService.updateChapterImageDir (fs : FS) (mangaId oldNumber newNumber : Int) : Except String FS :=
  let oldPath := chapterDirPath mangaId oldNumber
  let newPath := chapterDirPath mangaId newNumber
  if oldPath ∈ fs.dirs then fsRename fs oldPath newPath
  else fsMkdirAll fs newPath

/-- ChapterService.savePageImage: MkdirAll of the parent directory, then
WriteFile at `manga_%d/chapter_%.2f/page_%03d.jpg`; returns the relative
path.  The filesystem component carries any partial effect (a directory
created before a failing write persists). -/
def ChapterService.savePageImage (fs : FS) (mangaId chapterNumber pageNumber : Int)
    (data : List Nat) : FS × Except String String :=
  let relPath := "manga_" ++ toString mangaId ++ "/chapter_" ++ fmt2 chapterNumber ++
    "/page_" ++ pad3 pageNumber ++ ".jpg"
  match fsMkdirAll fs (chapterDirPath mangaId chapterNumber) with
  | .error e => (fs, .error e)
  | .ok fs1 =>
    match fsWriteFile fs1 relPath data with
    | .error e => (fs1, .error e)
    | .ok fs2 => (fs2, .ok relPath)

/-- ChapterService.deletePageImage: Remove at the same derived path. -/
def ChapterService.deletePageImage (fs : FS) (mangaId chapterNumber pageNumber : Int) : Except String FS :=
  fsRemoveFile fs ("manga_" ++ toString mangaId ++ "/chapter_" ++ fmt2 chapterNumber ++
    "/page_" ++ pad3 pageNumber ++ ".jpg")

/-- ChapterService.Create: validate manga id, positive number and
non-empty title; check the manga exists; create the image directory;
insert the chapter row.  A directory created before a failing insert
persists in the returned world. -/
def ChapterService.Create (w : World) (c : Chapter) : World × Except Err Int :=
  if c.mangaId = 0 then (w, .error (.validation "manga id is required"))
  else if c.number ≤ 0 then (w, .error (.validation "chapter number must be positive"))
  else if c.title = "" then (w, .error (.validation "chapter title is required"))
  else if !(w.db.mangas.any (fun m => m == c.mangaId)) then
    (w, .error (.notFound s!"manga with id {c.mangaId} not found"))
  else
    match ChapterService.createChapterImageDir w.fs c.mangaId c.number with
    | .error e => (w, .error (.storage ("failed to create chapter image directory: " ++ e)))
    | .ok fs1 =>
      match ChapterRepo.Create w.db c with
      | .error e => ({ db := w.db, fs := fs1 }, .error e)
      | .ok (db1, id) => ({ db := db1, fs := fs1 }, .ok id)

/-- ChapterService.Update: validate a non-zero id, fetch the existing row;
if the number changed, move the image directory first; then update the
row.  A renamed directory persists even when the row update then fails. -/
def ChapterService.Update (w : World) (c : Chapter) : World × Except Err Unit :=
  if c.id = 0 then (w, .error (.validation "chapter id is required"))
  else
    match ChapterRepo.GetByID w.db c.id with
    | .error e => (w, .error e)
    | .ok existing =>
      if existing.number ≠ c.number then
        match ChapterService.updateChapterImageDir w.fs existing.mangaId existing.number c.number with
        | .error e => (w, .error (.storage ("failed to update chapter image directory: " ++ e)))
        | .ok fs1 =>
          match ChapterRepo.Update w.db c with
          | .error e => ({ db := w.db, fs := fs1 }, .error e)
          | .ok db1 => ({ db := db1, fs := fs1 }, .ok ())
      else
        match ChapterRepo.Update w.db c with
        | .error e => (w, .error e)
        | .ok db1 => ({ db := db1, fs := w.fs }, .ok ())

/-- ChapterService.AddPage: validate a non-zero chapter id, fetch the
chapter; if the requested number is ≤ 0, assign `len(GetPages)+1`; write
the image; insert the row, removing the written file (best effort) when
the insert fails. -/
def ChapterService.AddPage (w : World) (p : Page) (data : List Nat) : World × Except Err Int :=
  if p.chapterId = 0 then (w, .error (.validation "chapter id is required"))
  else
    match ChapterRepo.GetByID w.db p.chapterId with
    | .error e => (w, .error e)
    | .ok chapter =>
      let pnum : Int :=
        if p.number ≤ 0 then ((ChapterRepo.GetPages w.db p.chapterId).length : Int) + 1
        else p.number
      match ChapterService.savePageImage w.fs chapter.mangaId chapter.number pnum data with
      | (fs1, .error e) => ({ db := w.db, fs := fs1 }, .error (.storage ("failed to save page image: " ++ e)))
      | (fs1, .ok relPath) =>
        match ChapterRepo.AddPage w.db { p with number := pnum, imageUrl := relPath } with
        | .error e =>
          let fs2 := match fsRemoveFile fs1 relPath with
            | .ok f => f
            | .error _ => fs1
          ({ db := w.db, fs := fs2 }, .error e)
        | .ok (db1, id) => ({ db := db1, fs := fs1 }, .ok id)

/-- Zero value of domain.Page, left in `targetPage` when the service's
lookup loop finds no match. -/
def zeroPage : Page := { id := 0, chapterId := 0, number := 0, imageUrl := "" }

/-- ChapterService.DeletePage: fetches `GetPages(ctx, 0)` (the chapter id
is hard-coded to 0), scans that list for the page id, and errors when the
scan leaves the zero value; otherwise deletes the row and best-effort
removes the image file. -/
def ChapterService.DeletePage (w : World) (id : Int) : World × Except Err Unit :=
  let pages := ChapterRepo.GetPages w.db 0
  let target := (pages.find? (fun p => p.id == id)).getD zeroPage
  if target.id = 0 then (w, .error (.notFound s!"page with id {id} not found"))
  else
    match ChapterRepo.GetByID w.db target.chapterId with
    | .error e => (w, .error e)
    | .ok chapter =>
      match ChapterRepo.DeletePage w.db id with
      | .error e => (w, .error e)
      | .ok db1 =>
        let fs1 := match ChapterService.deletePageImage w.fs chapter.mangaId chapter.number target.number with
          | .ok f => f
          | .error _ => w.fs
        ({ db := db1, fs := fs1 }, .ok ())

/-- Page rows of one chapter (unordered). -/
def pagesOf (db : DB) (cid : Int) : List Page :=
  db.pages.filter (fun p => p.chapterId == cid)

/-- Structural well-formedness maintained by the SERIAL primary key:
page ids are distinct and below the sequence counter. -/
def WF (db : DB) : Prop :=
  (db.pages.map (fun p => p.id)).Nodup ∧ ∀ p ∈ db.pages, p.id < db.nextPageId

/-- The spec §8 chapter invariant: the chapter's page numbers are exactly
{1, …, N} for N the number of its page rows (as a multiset, hence no
gaps and no duplicates), and every chapter row with this id carries
`page_count = N`. -/
def chapterInv (db : DB) (cid : Int) : Prop :=
  ((pagesOf db cid).map (fun p => p.number)).Perm
      ((List.range (pagesOf db cid).length).map (fun (i : Nat) => (i : Int) + 1)) ∧
  ∀ c ∈ db.chapters, c.id = cid → c.pageCount = ((pagesOf db cid).length : Int)

/-- The spec §4.1/§9 path invariant (claim C4): every page row's stored
image path is the deterministic path derived from its identity. -/
def pathInv (db : DB) : Prop :=
  ∀ p ∈ db.pages, ∀ c ∈ db.chapters, c.id = p.chapterId →
    p.imageUrl = pagePath c.mangaId c.number p.number

instance (db : DB) : Decidable (WF db) := by
  unfold WF
  infer_instance

instance (db : DB) (cid : Int) : Decidable (chapterInv db cid) := by
  unfold chapterInv
  infer_instance

instance (db : DB) : Decidable (pathInv db) := by
  unfold pathInv
  infer_instance

/-- Administrative operations of claim C1's amended form: add a page with
an unset (auto-assigned) number, or delete a page by id. -/
inductive AdminOp where
  | addPage (data : List Nat)
  | delPage (pid : Int)
deriving DecidableEq, Repr

/-- One step of claim C1's operation sequence: the service-level add (with
requested number 0, the auto-assign case) and the repository-level
delete; a failed operation keeps whatever state the failure left. -/
def applyOp (cid : Int) (w : World) : AdminOp → World
  | .addPage data => (ChapterService.AddPage w { id := 0, chapterId := cid, number := 0, imageUrl := "" } data).1
  | .delPage pid =>
    match ChapterRepo.DeletePage w.db pid with
    | .ok db1 => { db := db1, fs := w.fs }
    | .error _ => w

/-- Run a sequence of administrative operations on one chapter. -/
def runOps (cid : Int) (w : World) : List AdminOp → World
  | [] => w
  | op :: rest => runOps cid (applyOp cid w op) rest

/-- A fault-free filesystem holding one chapter directory. -/
def fsEx : FS :=
  { dirs := ["manga_1/chapter_1.00"], files := [],
    mkdirFails := false, writeFails := false, renameFails := false, removeFails := false }

/-- Scenario state: chapter 10 of manga 1 holding pages 1, 2, 3 (ids 101,
102, 103) with path-consistent image urls and page_count 3. -/
def dbEx : DB :=
  { mangas := [1],
    chapters := [{ id := 10, mangaId := 1, number := 100, title := "Pilot", pageCount := 3 }],
    pages :=
      [{ id := 101, chapterId := 10, number := 1, imageUrl := "manga_1/chapter_1.00/page_001.jpg" },
       { id := 102, chapterId := 10, number := 2, imageUrl := "manga_1/chapter_1.00/page_002.jpg" },
       { id := 103, chapterId := 10, number := 3, imageUrl := "manga_1/chapter_1.00/page_003.jpg" }],
    nextChapterId := 11, nextPageId := 104 }

/-- World with one empty chapter (id 1, manga 1, number 1.00). -/
def emptyChapterWorld : World :=
  { db := { mangas := [1],
            chapters := [{ id := 1, mangaId := 1, number := 100, title := "Pilot", pageCount := 0 }],
            pages := [], nextChapterId := 2, nextPageId := 1 },
    fs := fsEx }

/-- Decidable equality of results, for concrete evaluation. -/
instance {e a : Type} [DecidableEq e] [DecidableEq a] : DecidableEq (Except e a) := fun x y =>
  match x, y with
  | .ok u, .ok v =>
    if h : u = v then isTrue (congrArg Except.ok h)
    else isFalse (fun he => h (by cases he; rfl))
  | .error u, .error v =>
    if h : u = v then isTrue (congrArg Except.error h)
    else isFalse (fun he => h (by cases he; rfl))
  | .ok _, .error _ => isFalse (fun he => Except.noConfusion he)
  | .error _, .ok _ => isFalse (fun he => Except.noConfusion he)

/-- Malformed update request: non-positive chapter number and empty
title, targeting the existing chapter id 10. -/
def badUpdate : Chapter := { id := 10, mangaId := 1, number := 0, title := "", pageCount := 3 }

/-- World for the renumbering scenario with rename I/O failing. -/
def w5 : World := { db := dbEx, fs := { fsEx with renameFails := true } }

/-- Renumber request: chapter 10 from number 1.00 to 2.00. -/
def c5req : Chapter := { id := 10, mangaId := 1, number := 200, title := "Pilot", pageCount := 3 }

/-- The chapter row of `dbEx`. -/
def ch10 : Chapter := { id := 10, mangaId := 1, number := 100, title := "Pilot", pageCount := 3 }

/-- World for the add-page compensation scenario: write I/O failing. -/
def w6 : World := { db := dbEx, fs := { fsEx with writeFails := true } }

/-- Add-page request for chapter 10 with an explicit number. -/
def p6 : Page := { id := 0, chapterId := 10, number := 1, imageUrl := "" }

/-- Add-page request with an unset (zero) page number. -/
def pAuto : Page := { id := 0, chapterId := 10, number := 0, imageUrl := "" }

/-- Rank of an element of a duplicate-free list: mapping every element to
its own rank enumerates `0, …, length-1`. -/
theorem map_idxOf_self (xs : List Int) (h : xs.Nodup) :
    xs.map (fun x => idxOf x xs) = List.range xs.length := by
  induction xs with
  | nil => rfl
  | cons a t ih =>
    have ha : a ∉ t := (List.nodup_cons.mp h).1
    have ht : t.Nodup := (List.nodup_cons.mp h).2
    have h1 : t.map (fun x => idxOf x (a :: t)) = t.map (fun x => idxOf x t + 1) := by
      refine List.map_congr_left ?_
      intro x hx
      have hax : a ≠ x := fun e => ha (e ▸ hx)
      simp [idxOf, hax]
    calc (a :: t).map (fun x => idxOf x (a :: t))
        = idxOf a (a :: t) :: t.map (fun x => idxOf x (a :: t)) := rfl
      _ = 0 :: t.map (fun x => idxOf x t + 1) := by rw [h1]; simp [idxOf]
      _ = 0 :: (t.map (fun x => idxOf x t)).map Nat.succ := by rw [List.map_map]; rfl
      _ = 0 :: (List.range t.length).map Nat.succ := by rw [ih ht]
      _ = List.range (a :: t).length := (List.range_succ_eq_map t.length).symm

/-- A function preserving a Boolean predicate commutes with filtering. -/
theorem filter_map_comm {α : Type} (f : α → α) (p : α → Bool) (l : List α)
    (h : ∀ a, p (f a) = p a) : (l.map f).filter p = (l.filter p).map f := by
  rw [List.filter_map]
  congr 1
  exact List.filter_congr (fun a _ => h a)

/-- GetPages only reorders the chapter's page rows. -/
theorem length_GetPages (db : DB) (cid : Int) :
    (ChapterRepo.GetPages db cid).length = (pagesOf db cid).length :=
  (List.perm_insertionSort _ _).length_eq

/-- GetPages is a permutation of the chapter's page rows. -/
theorem perm_GetPages (db : DB) (cid : Int) :
    (ChapterRepo.GetPages db cid).Perm (pagesOf db cid) :=
  List.perm_insertionSort _ _

/-- A successful write stores exactly the written bytes at the path. -/
theorem fileAt_fsWriteFile (fs : FS) (path : String) (data : List Nat) (fs1 : FS)
    (h : fsWriteFile fs path data = .ok fs1) : fileAt fs1 path = some data := by
  unfold fsWriteFile at h
  split at h
  · exact absurd h (by simp)
  · injection h with h'
    subst h'
    unfold fileAt
    have hnone : (fs.files.filter (fun e => !(e.1 == path))).find? (fun e => e.1 == path) = none := by
      refine List.find?_eq_none.mpr ?_
      intro e he
      have h2 := (List.mem_filter.mp he).2
      simp only [Bool.not_eq_true'] at h2
      simp [h2]
    simp [List.find?_append, hnone, List.find?]

/-- C2: starting from a chapter holding pages numbered 1, 2, 3 with
page_count 3 (state `dbEx`), the repository's delete-page unit applied to
the page numbered 2 (row id 102) deletes that row, renumbers the two
survivors to the dense sequence 1, 2 ordered by their prior numbers, and
sets page_count to 2.  The unit is a single transaction: in the model it
is one function whose error result leaves the database value unchanged,
so all steps land together or not at all. -/
theorem C2_deletePage_scenarioB :
    ∃ db1, ChapterRepo.DeletePage dbEx 102 = .ok db1 ∧
      (pagesOf db1 10).map (fun p => (p.id, p.number)) = [(101, 1), (103, 2)] ∧
      db1.chapters.map (fun c => c.pageCount) = [2] ∧
      ∀ p ∈ db1.pages, p.id ≠ 102 :=
  ⟨_, rfl, by decide, by decide, by decide⟩

/-- C3: under the precondition that no page row has chapter id 0, the
lifecycle manager's DeletePage returns the "page with id %d not found"
error for every page id and leaves the world untouched (no row deleted,
no image file removed), because it searches the list fetched for chapter
id 0. -/
theorem C3_serviceDeletePage_alwaysNotFound (w : World) (id : Int)
    (h : ∀ p ∈ w.db.pages, p.chapterId ≠ 0) :
    ChapterService.DeletePage w id = (w, .error (.notFound s!"page with id {id} not found")) := by
  have hfil : w.db.pages.filter (fun p => p.chapterId == (0 : Int)) = [] := by
    refine List.filter_eq_nil_iff.mpr ?_
    intro p hp
    simp [h p hp]
  unfold ChapterService.DeletePage ChapterRepo.GetPages
  rw [hfil]
  simp [sortByNumber, List.insertionSort, zeroPage]

/-- Witness for C3 at the concrete state `dbEx` and page id 102. -/
theorem C3_witness :
    (∀ p ∈ ({ db := dbEx, fs := fsEx } : World).db.pages, p.chapterId ≠ 0) ∧
      ChapterService.DeletePage { db := dbEx, fs := fsEx } 102 =
        ({ db := dbEx, fs := fsEx }, .error (.notFound "page with id 102 not found")) :=
  ⟨by decide, C3_serviceDeletePage_alwaysNotFound { db := dbEx, fs := fsEx } 102 (by decide)⟩

/-- C4 counterexample: in state `dbEx` every stored image path is the
deterministic path derived from (manga id, chapter number, page number),
but after the completed repository delete-page unit on page id 101 the
renumbered survivors keep their old paths, so the invariant the claim
asserts for "every completed lifecycle operation" is false. -/
theorem C4_counterexample :
    pathInv dbEx ∧ ∃ db1, ChapterRepo.DeletePage dbEx 101 = .ok db1 ∧ ¬ pathInv db1 :=
  ⟨by decide, _, rfl, by decide⟩

/-- C4 amended: the delete-page renumbering rewrites only the `number`
column; every surviving page keeps the image path (and chapter) it had
before the deletion, so pages whose number shifted no longer satisfy the
derivable-path scheme. -/
theorem C4_amended_imageUrl_not_rewritten (db : DB) (pid : Int) (db1 : DB)
    (h : ChapterRepo.DeletePage db pid = .ok db1) :
    ∀ q ∈ db1.pages, ∃ p, p ∈ db.pages ∧ p.id = q.id ∧ p.imageUrl = q.imageUrl ∧
      p.chapterId = q.chapterId := by
  unfold ChapterRepo.DeletePage at h
  split at h
  · exact absurd h (by simp)
  · rename_i target hf
    simp only [Except.ok.injEq] at h
    subst h
    intro q hq
    simp only [List.mem_map] at hq
    obtain ⟨p, hp, hgp⟩ := hq
    refine ⟨p, List.mem_of_mem_filter hp, ?_, ?_, ?_⟩ <;>
      · rw [← hgp]
        by_cases hc : (p.chapterId == target.chapterId) = true <;> simp [hc]

/-- Witness for the amended C4 at the concrete deletion of page 102. -/
theorem C4_amended_witness :
    ∃ db1, ChapterRepo.DeletePage dbEx 102 = .ok db1 ∧
      ∀ q ∈ db1.pages, ∃ p, p ∈ dbEx.pages ∧ p.id = q.id ∧ p.imageUrl = q.imageUrl ∧
        p.chapterId = q.chapterId :=
  ⟨_, rfl, C4_amended_imageUrl_not_rewritten dbEx 102 _ rfl⟩

/-- C8 counterexample: `savePageImage` for page 1 of chapter 1.00 of
series 1 returns the relative path "manga_1/chapter_1.00/page_001.jpg",
which is not the claim's literal pattern
`series_<s>/chapter_<2-decimal>/page_<3-digit>.<ext>` at the same input:
the per-series directory is named `manga_<id>` in the code. -/
theorem C8_counterexample :
    (ChapterService.savePageImage fsEx 1 100 1 [9]).2 = .ok "manga_1/chapter_1.00/page_001.jpg" ∧
      "manga_1/chapter_1.00/page_001.jpg" ≠ specPagePath 1 100 1 :=
  ⟨rfl, by decide⟩

/-- C8 amended: both `savePageImage` and `deletePageImage` use the single
deterministic derivation `manga_<id>/chapter_<2-decimal>/page_<3-digit
zero-padded>.jpg`; a successful write returns exactly that relative path
and stores the bytes at it, and the delete operation removes the file at
the very same derived path.  This naming is the on-disk layout contract
of the code (with `manga_` where the spec writes `series_`). -/
theorem C8_amended_path_contract (fs : FS) (m c p : Int) (data : List Nat)
    (hm : fs.mkdirFails = false) (hw : fs.writeFails = false) :
    (∃ fs1, ChapterService.savePageImage fs m c p data = (fs1, .ok (pagePath m c p)) ∧
        fileAt fs1 (pagePath m c p) = some data) ∧
      ChapterService.deletePageImage fs m c p = fsRemoveFile fs (pagePath m c p) := by
  constructor
  · obtain ⟨fs1, h1, hw1⟩ :
        ∃ fs1, fsMkdirAll fs (chapterDirPath m c) = .ok fs1 ∧ fs1.writeFails = false := by
      unfold fsMkdirAll
      rw [hm]
      by_cases hd : chapterDirPath m c ∈ fs.dirs
      · exact ⟨fs, by rw [if_neg (by simp), if_pos hd], hw⟩
      · exact ⟨{ fs with dirs := fs.dirs ++ [chapterDirPath m c] },
          by rw [if_neg (by simp), if_neg hd, hm], hw⟩
    obtain ⟨fs2, h2⟩ : ∃ fs2, fsWriteFile fs1 (pagePath m c p) data = .ok fs2 := by
      unfold fsWriteFile
      rw [hw1]
      exact ⟨_, by rw [if_neg (by simp)]⟩
    refine ⟨fs2, ?_, fileAt_fsWriteFile fs1 (pagePath m c p) data fs2 h2⟩
    unfold pagePath at h2
    simp only [ChapterService.savePageImage, h1, h2, pagePath]
  · rfl

/-- Witness for the amended C8 at series 1, chapter 1.00, page 1. -/
theorem C8_amended_witness :
    fsEx.mkdirFails = false ∧ fsEx.writeFails = false ∧
      ((∃ fs1, ChapterService.savePageImage fsEx 1 100 1 [9] = (fs1, .ok (pagePath 1 100 1)) ∧
          fileAt fs1 (pagePath 1 100 1) = some [9]) ∧
        ChapterService.deletePageImage fsEx 1 100 1 = fsRemoveFile fsEx (pagePath 1 100 1)) :=
  ⟨rfl, rfl, C8_amended_path_contract fsEx 1 100 1 [9] rfl rfl⟩

/-- C9 counterexample: the update-chapter operation performs no input
validation beyond a non-zero id.  Applied to `badUpdate` (number 0,
empty title) it does not return a validation error: it succeeds, renames
the image directory, and persists the malformed number and title into
the chapter row — side effects happened, so "rejected before any side
effect" is false for update-chapter. -/
theorem C9_counterexample :
    (ChapterService.Update { db := dbEx, fs := fsEx } badUpdate).2 = .ok () ∧
      (ChapterService.Update { db := dbEx, fs := fsEx } badUpdate).1 ≠
        { db := dbEx, fs := fsEx } ∧
      (ChapterService.Update { db := dbEx, fs := fsEx } badUpdate).1.db.chapters.map
          (fun c => (c.number, c.title)) = [(0, "")] :=
  ⟨by decide, by decide, by decide⟩

/-- C9 amended: create-chapter does reject malformed input — a zero manga
id, a non-positive chapter number or an empty title — with a validation
error before any side effect (the returned world is exactly the input
world); update-chapter, however, validates only a non-zero chapter id
(see the counterexample). -/
theorem C9_amended_create_validates (w : World) (c : Chapter)
    (h : c.mangaId = 0 ∨ c.number ≤ 0 ∨ c.title = "") :
    ∃ m, ChapterService.Create w c = (w, .error (.validation m)) := by
  unfold ChapterService.Create
  by_cases h1 : c.mangaId = 0
  · exact ⟨"manga id is required", by rw [if_pos h1]⟩
  · by_cases h2 : c.number ≤ 0
    · exact ⟨"chapter number must be positive", by rw [if_neg h1, if_pos h2]⟩
    · have h3 : c.title = "" := by tauto
      exact ⟨"chapter title is required", by rw [if_neg h1, if_neg h2, if_pos h3]⟩

/-- Witness for the amended C9: creating a chapter with number 0 is
rejected by validation with no state change. -/
theorem C9_amended_witness :
    (((0 : Int) = 0 ∨ (0 : Int) ≤ 0 ∨ "X" = "") ∧
      ∃ m, ChapterService.Create emptyChapterWorld
          { id := 0, mangaId := 1, number := 0, title := "X", pageCount := 0 } =
        (emptyChapterWorld, .error (.validation m))) := by
  refine ⟨Or.inr (Or.inl le_rfl), ?_⟩
  exact C9_amended_create_validates emptyChapterWorld
    { id := 0, mangaId := 1, number := 0, title := "X", pageCount := 0 }
    (Or.inr (Or.inl (by decide)))

/-- C7: creating a chapter for a (manga id, number) pair that already has
a chapter — with well-formed fields, an existing manga, and the backing
directory already present from the existing chapter's creation — returns
the unique-constraint conflict error and leaves the world exactly
unchanged: no new directory (MkdirAll is idempotent on the existing one)
and no duplicate row. -/
theorem C7_create_conflict (w : World) (c c0 : Chapter)
    (hm : c.mangaId ≠ 0) (hn : 0 < c.number) (ht : c.title ≠ "")
    (hmx : c.mangaId ∈ w.db.mangas)
    (h0 : c0 ∈ w.db.chapters) (h0m : c0.mangaId = c.mangaId) (h0n : c0.number = c.number)
    (hdir : chapterDirPath c.mangaId c.number ∈ w.fs.dirs)
    (hmk : w.fs.mkdirFails = false) :
    ChapterService.Create w c =
      (w, .error (.conflict "error inserting chapter: duplicate (manga_id, number)")) := by
  have hany : (w.db.mangas.any (fun m => m == c.mangaId)) = true :=
    List.any_eq_true.mpr ⟨c.mangaId, hmx, by simp⟩
  have hconf : (w.db.chapters.any (fun x => x.mangaId == c.mangaId && x.number == c.number)) = true :=
    List.any_eq_true.mpr ⟨c0, h0, by simp [h0m, h0n]⟩
  have hmkd : ChapterService.createChapterImageDir w.fs c.mangaId c.number = .ok w.fs := by
    unfold ChapterService.createChapterImageDir fsMkdirAll
    rw [hmk]
    rw [if_neg (by simp), if_pos hdir]
  have hrc : ChapterRepo.Create w.db c =
      .error (.conflict "error inserting chapter: duplicate (manga_id, number)") := by
    unfold ChapterRepo.Create
    rw [hconf]
    simp
  unfold ChapterService.Create
  rw [if_neg hm, if_neg (not_le.mpr hn), if_neg ht, hany]
  simp only [Bool.not_true, Bool.false_eq_true, if_false, hmkd, hrc]

/-- Witness for C7: duplicating (manga 1, chapter 1.00) in state `dbEx`. -/
theorem C7_witness :
    (({ id := 10, mangaId := 1, number := 100, title := "Pilot", pageCount := 3 } : Chapter) ∈
        dbEx.chapters) ∧
      ChapterService.Create { db := dbEx, fs := fsEx }
          { id := 0, mangaId := 1, number := 100, title := "Dup", pageCount := 0 } =
        ({ db := dbEx, fs := fsEx },
          .error (.conflict "error inserting chapter: duplicate (manga_id, number)")) :=
  ⟨by decide,
    C7_create_conflict { db := dbEx, fs := fsEx }
      { id := 0, mangaId := 1, number := 100, title := "Dup", pageCount := 0 }
      { id := 10, mangaId := 1, number := 100, title := "Pilot", pageCount := 3 }
      (by decide) (by decide) (by decide) (by decide) (by decide) (by decide) (by decide)
      (by decide) (by decide)⟩

/-- C5: when the requested chapter number differs from the stored one
(and the old backing directory exists), the update operation renames the
directory before touching the row: if the rename fails, it returns a
storage error with the whole world — in particular the chapter row,
still recording the old number — unchanged; and in every outcome the row
is only changed when the directory now sits at the new path and no
longer at the old one (rename strictly precedes the row update). -/
theorem C5_update_renames_before_row (w : World) (c ex : Chapter)
    (hid : c.id ≠ 0)
    (hex : ChapterRepo.GetByID w.db c.id = .ok ex)
    (hnum : ex.number ≠ c.number)
    (hdir : chapterDirPath ex.mangaId ex.number ∈ w.fs.dirs)
    (hpath : chapterDirPath ex.mangaId ex.number ≠ chapterDirPath ex.mangaId c.number) :
    (w.fs.renameFails = true →
       ChapterService.Update w c =
         (w, .error (.storage "failed to update chapter image directory: rename failed"))) ∧
    (∀ w1 r, ChapterService.Update w c = (w1, r) → w1.db ≠ w.db →
       chapterDirPath ex.mangaId c.number ∈ w1.fs.dirs ∧
       chapterDirPath ex.mangaId ex.number ∉ w1.fs.dirs) := by
  have hupd : ChapterService.updateChapterImageDir w.fs ex.mangaId ex.number c.number =
      fsRename w.fs (chapterDirPath ex.mangaId ex.number) (chapterDirPath ex.mangaId c.number) := by
    unfold ChapterService.updateChapterImageDir
    rw [if_pos hdir]
  constructor
  · intro hrf
    have hren : fsRename w.fs (chapterDirPath ex.mangaId ex.number)
        (chapterDirPath ex.mangaId c.number) = .error "rename failed" := by
      unfold fsRename
      rw [hrf]
      simp
    unfold ChapterService.Update
    rw [if_neg hid, hex]
    simp only [if_pos hnum, hupd, hren]
    rfl
  · intro w1 r heq hne
    by_cases hrf : w.fs.renameFails = true
    · have hren : fsRename w.fs (chapterDirPath ex.mangaId ex.number)
          (chapterDirPath ex.mangaId c.number) = .error "rename failed" := by
        unfold fsRename
        rw [hrf]
        simp
      unfold ChapterService.Update at heq
      rw [if_neg hid, hex] at heq
      simp only [if_pos hnum, hupd, hren] at heq
      injection heq with e1 e2
      subst e1
      exact absurd rfl hne
    · have hrff : w.fs.renameFails = false := by
        cases hb : w.fs.renameFails
        · rfl
        · exact absurd hb hrf
      have hren : fsRename w.fs (chapterDirPath ex.mangaId ex.number)
          (chapterDirPath ex.mangaId c.number) =
          .ok { w.fs with
            dirs := (w.fs.dirs.filter (fun d => !(d == chapterDirPath ex.mangaId ex.number))) ++
              [chapterDirPath ex.mangaId c.number],
            files := w.fs.files.map (fun e =>
              (movePath (chapterDirPath ex.mangaId ex.number) (chapterDirPath ex.mangaId c.number) e.1, e.2)) } := by
        unfold fsRename
        simp [hrff]
      unfold ChapterService.Update at heq
      rw [if_neg hid, hex] at heq
      simp only [if_pos hnum, hupd, hren] at heq
      cases hru : ChapterRepo.Update w.db c with
      | error e =>
        rw [hru] at heq
        simp only [] at heq
        injection heq with e1 e2
        subst e1
        exact absurd rfl hne
      | ok db1 =>
        rw [hru] at heq
        simp only [] at heq
        injection heq with e1 e2
        subst e1
        constructor
        · exact List.mem_append.mpr (Or.inr (List.mem_singleton.mpr rfl))
        · intro hmem
          rcases List.mem_append.mp hmem with hA | hB
          · have h2 := (List.mem_filter.mp hA).2
            simp at h2
          · exact hpath (List.mem_singleton.mp hB)

/-- Witness for C5 at the renumber request 1.00 → 2.00 with rename
failure injected. -/
theorem C5_witness :
    ChapterRepo.GetByID w5.db c5req.id = .ok ch10 ∧
      ((w5.fs.renameFails = true →
          ChapterService.Update w5 c5req =
            (w5, .error (.storage "failed to update chapter image directory: rename failed"))) ∧
        (∀ w1 r, ChapterService.Update w5 c5req = (w1, r) → w1.db ≠ w5.db →
          chapterDirPath ch10.mangaId c5req.number ∈ w1.fs.dirs ∧
          chapterDirPath ch10.mangaId ch10.number ∉ w1.fs.dirs)) :=
  ⟨by decide,
    C5_update_renames_before_row w5 c5req ch10 (by decide) (by decide) (by decide)
      (by decide) (by decide)⟩

/-- Removing a present file succeeds and purges every entry at the path. -/
theorem fsRemoveFile_clean (fs : FS) (path : String) (hr : fs.removeFails = false)
    (hin : (fs.files.any (fun e => e.1 == path)) = true) :
    ∃ fs3, fsRemoveFile fs path = .ok fs3 ∧ (∀ e ∈ fs3.files, e.1 ≠ path) := by
  refine ⟨{ fs with files := fs.files.filter (fun e => !(e.1 == path)) }, ?_, ?_⟩
  · unfold fsRemoveFile
    rw [hr, hin]
    simp
  · intro e he
    have h2 := (List.mem_filter.mp he).2
    simpa using h2

/-- C6: in add-page, a failing image write aborts the operation with a
storage error before the insert — no page row is created, page_count is
untouched (the database value is exactly the input one) and no file was
stored; and when the image write succeeded but the page-row insert then
fails on the (chapter_id, number) unique constraint, the insert's
conflict error is returned, the database is exactly the input one, and
the written file has been removed again as compensation. -/
theorem C6_addPage_compensation (w : World) (p : Page) (ch : Chapter) (data : List Nat)
    (hcid : p.chapterId ≠ 0)
    (hch : ChapterRepo.GetByID w.db p.chapterId = .ok ch)
    (hmk : w.fs.mkdirFails = false) :
    (w.fs.writeFails = true →
      ∃ fs1, ChapterService.AddPage w p data =
          ({ db := w.db, fs := fs1 }, .error (.storage "failed to save page image: write failed")) ∧
        fs1.files = w.fs.files) ∧
    (w.fs.writeFails = false → w.fs.removeFails = false → 0 < p.number →
      (∃ q ∈ w.db.pages, q.chapterId = p.chapterId ∧ q.number = p.number) →
      ∃ fs2, ChapterService.AddPage w p data =
          ({ db := w.db, fs := fs2 },
            .error (.conflict "error inserting page: duplicate (chapter_id, number)")) ∧
        ∀ e ∈ fs2.files, e.1 ≠ pagePath ch.mangaId ch.number p.number) := by
  obtain ⟨fs1, h1, hf1, hw1, hr1⟩ :
      ∃ fs1, fsMkdirAll w.fs (chapterDirPath ch.mangaId ch.number) = .ok fs1 ∧
        fs1.files = w.fs.files ∧ fs1.writeFails = w.fs.writeFails ∧
        fs1.removeFails = w.fs.removeFails := by
    unfold fsMkdirAll
    rw [hmk]
    by_cases hd : chapterDirPath ch.mangaId ch.number ∈ w.fs.dirs
    · exact ⟨w.fs, by rw [if_neg (by simp), if_pos hd], rfl, rfl, rfl⟩
    · exact ⟨{ dirs := w.fs.dirs ++ [chapterDirPath ch.mangaId ch.number], files := w.fs.files, mkdirFails := false, writeFails := w.fs.writeFails, renameFails := w.fs.renameFails, removeFails := w.fs.removeFails }, by rw [if_neg (by simp), if_neg hd], rfl, rfl, rfl⟩
  constructor
  · intro hwf
    have hsave : ∀ n : Int, ChapterService.savePageImage w.fs ch.mangaId ch.number n data =
        (fs1, .error "write failed") := by
      intro n
      unfold ChapterService.savePageImage fsWriteFile
      simp [h1, hw1, hwf]
    refine ⟨fs1, ?_, hf1⟩
    unfold ChapterService.AddPage
    rw [if_neg hcid, hch]
    simp only [hsave]
    rfl
  · intro hwf hrm hpos hconf
    have hple : ¬ p.number ≤ 0 := not_le.mpr hpos
    have hw1f : fs1.writeFails = false := by rw [hw1, hwf]
    have hr1f : fs1.removeFails = false := by rw [hr1, hrm]
    have hwrite : fsWriteFile fs1 (pagePath ch.mangaId ch.number p.number) data =
        .ok { fs1 with files := (fs1.files.filter
            (fun e => !(e.1 == pagePath ch.mangaId ch.number p.number))) ++
          [(pagePath ch.mangaId ch.number p.number, data)] } := by
      unfold fsWriteFile
      rw [hw1f]
      simp
    have hsave : ChapterService.savePageImage w.fs ch.mangaId ch.number p.number data =
        ({ fs1 with files := (fs1.files.filter
            (fun e => !(e.1 == pagePath ch.mangaId ch.number p.number))) ++
          [(pagePath ch.mangaId ch.number p.number, data)] },
          .ok (pagePath ch.mangaId ch.number p.number)) := by
      unfold ChapterService.savePageImage
      unfold pagePath at hwrite
      simp [h1, hwrite]
      exact ⟨rfl, rfl⟩
    have hadd : ∀ url, ChapterRepo.AddPage w.db { p with number := p.number, imageUrl := url } =
        .error (.conflict "error inserting page: duplicate (chapter_id, number)") := by
      intro url
      obtain ⟨q, hq, hqc, hqn⟩ := hconf
      have hany : (w.db.pages.any (fun x =>
          x.chapterId == ({ p with number := p.number, imageUrl := url } : Page).chapterId &&
          x.number == ({ p with number := p.number, imageUrl := url } : Page).number)) = true :=
        List.any_eq_true.mpr ⟨q, hq, by simp [hqc, hqn]⟩
      unfold ChapterRepo.AddPage
      rw [hany]
      simp
    have hany2 : ((({ fs1 with files := (fs1.files.filter
          (fun e => !(e.1 == pagePath ch.mangaId ch.number p.number))) ++
        [(pagePath ch.mangaId ch.number p.number, data)] } : FS).files.any
          (fun e => e.1 == pagePath ch.mangaId ch.number p.number)) = true) := by
      refine List.any_eq_true.mpr ⟨(pagePath ch.mangaId ch.number p.number, data), ?_, by simp⟩
      exact List.mem_append.mpr (Or.inr (List.mem_singleton.mpr rfl))
    obtain ⟨fs3, hrem, hcl⟩ := fsRemoveFile_clean
      { fs1 with files := (fs1.files.filter
          (fun e => !(e.1 == pagePath ch.mangaId ch.number p.number))) ++
        [(pagePath ch.mangaId ch.number p.number, data)] }
      (pagePath ch.mangaId ch.number p.number) hr1f hany2
    have hpnum : (if p.number ≤ 0
        then ((ChapterRepo.GetPages w.db p.chapterId).length : Int) + 1
        else p.number) = p.number := if_neg hple
    refine ⟨fs3, ?_, hcl⟩
    unfold ChapterService.AddPage
    rw [if_neg hcid, hch]
    simp only [hpnum, hsave, hadd, hrem]

/-- Witness for C6: adding page number 1 to chapter 10 (which already has
a page numbered 1) under an injected write fault. -/
theorem C6_witness :
    p6.chapterId ≠ 0 ∧ w6.fs.mkdirFails = false ∧
      ((w6.fs.writeFails = true →
        ∃ fs1, ChapterService.AddPage w6 p6 [5] =
            ({ db := w6.db, fs := fs1 }, .error (.storage "failed to save page image: write failed")) ∧
          fs1.files = w6.fs.files) ∧
      (w6.fs.writeFails = false → w6.fs.removeFails = false → 0 < p6.number →
        (∃ q ∈ w6.db.pages, q.chapterId = p6.chapterId ∧ q.number = p6.number) →
        ∃ fs2, ChapterService.AddPage w6 p6 [5] =
            ({ db := w6.db, fs := fs2 },
              .error (.conflict "error inserting page: duplicate (chapter_id, number)")) ∧
          ∀ e ∈ fs2.files, e.1 ≠ pagePath ch10.mangaId ch10.number p6.number)) :=
  ⟨by decide, by decide,
    C6_addPage_compensation w6 p6 ch10 [5] (by decide) (by decide) (by decide)⟩

/-- C10: whenever an add-page request with an unset or non-positive page
number completes successfully, the row it created carries the number
`(number of page rows the chapter held at that moment) + 1`. -/
theorem C10_autoNumber (w : World) (p : Page) (data : List Nat) (w1 : World) (pid : Int)
    (hnum : p.number ≤ 0)
    (hok : ChapterService.AddPage w p data = (w1, .ok pid)) :
    ∃ q ∈ w1.db.pages, q.id = pid ∧
      q.number = ((pagesOf w.db p.chapterId).length : Int) + 1 := by
  unfold ChapterService.AddPage at hok
  split at hok
  · exact absurd hok (by simp)
  · split at hok
    · exact absurd hok (by simp)
    · rename_i ch hg
      simp only [] at hok
      split at hok
      · exact absurd hok (by simp)
      · rename_i fs1 rel hs
        split at hok
        · exact absurd hok (by simp)
        · rename_i db1 pid2 hadd
          unfold ChapterRepo.AddPage at hadd
          split at hadd
          · exact absurd hadd (by simp)
          · split at hadd
            · exact absurd hadd (by simp)
            · simp only [Except.ok.injEq, Prod.mk.injEq] at hadd
              obtain ⟨hdb, hid⟩ := hadd
              subst hdb
              subst hid
              simp only [Prod.mk.injEq] at hok
              obtain ⟨hw1, hpid⟩ := hok
              subst hw1
              simp only [Except.ok.injEq] at hpid
              subst hpid
              refine ⟨_, List.mem_append.mpr (Or.inr (List.mem_singleton.mpr rfl)), rfl, ?_⟩
              simp only [length_GetPages]

/-- Witness for C10: auto-numbered add into chapter 10 of `dbEx`. -/
theorem C10_witness :
    pAuto.number ≤ 0 ∧
      ∃ q ∈ (ChapterService.AddPage { db := dbEx, fs := fsEx } pAuto [7]).1.db.pages,
        q.id = 104 ∧ q.number = ((pagesOf dbEx 10).length : Int) + 1 :=
  ⟨by decide,
    C10_autoNumber { db := dbEx, fs := fsEx } pAuto [7] _ 104 (by decide) rfl⟩

/-- The rank-and-rewrite pass of the delete-page renumbering assigns the
numbers 1..N (as a multiset) to any duplicate-id-free page list. -/
theorem renumber_numbers_perm (A : List Page) (hnd : (A.map (fun p => p.id)).Nodup) :
    (A.map (fun p => (idxOf p.id ((sortByNumber A).map (fun p => p.id)) : Int) + 1)).Perm
      ((List.range A.length).map (fun (i : Nat) => (i : Int) + 1)) := by
  have hperm : (sortByNumber A).Perm A := List.perm_insertionSort _ _
  have hids : ((sortByNumber A).map (fun p => p.id)).Perm (A.map (fun p => p.id)) := hperm.map _
  have hnd2 : ((sortByNumber A).map (fun p => p.id)).Nodup := hids.nodup_iff.mpr hnd
  have e2 : (sortByNumber A).map
        (fun p => (idxOf p.id ((sortByNumber A).map (fun p => p.id)) : Int) + 1) =
      (((sortByNumber A).map (fun p => p.id)).map
        (fun x => idxOf x ((sortByNumber A).map (fun p => p.id)))).map (fun (n : Nat) => (n : Int) + 1) := by
    simp only [List.map_map]
    rfl
  have e1 : (sortByNumber A).map
        (fun p => (idxOf p.id ((sortByNumber A).map (fun p => p.id)) : Int) + 1) =
      (List.range A.length).map (fun (i : Nat) => (i : Int) + 1) := by
    rw [e2, map_idxOf_self _ hnd2]
    have e3 : ((sortByNumber A).map (fun p => p.id)).length = A.length := by
      rw [List.length_map, hperm.length_eq]
    rw [e3]
  have h3 : (A.map (fun p => (idxOf p.id ((sortByNumber A).map (fun p => p.id)) : Int) + 1)).Perm
      ((sortByNumber A).map (fun p => (idxOf p.id ((sortByNumber A).map (fun p => p.id)) : Int) + 1)) :=
    (hperm.map _).symm
  rw [e1] at h3
  exact h3

/-- The delete-page transaction, when it commits, preserves structural
well-formedness and re-establishes the dense-numbering/page-count
invariant for every chapter: the owning chapter is renumbered to 1..N
and recount-ed, and every other chapter's rows are untouched. -/
theorem DeletePage_inv (db : DB) (pid cid : Int) (db1 : DB)
    (hwf : WF db) (hinv : chapterInv db cid)
    (h : ChapterRepo.DeletePage db pid = .ok db1) :
    WF db1 ∧ chapterInv db1 cid := by
  obtain ⟨hndids, hbound⟩ := hwf
  obtain ⟨hinv1, hinv2⟩ := hinv
  unfold pagesOf at hinv1 hinv2
  unfold ChapterRepo.DeletePage at h
  split at h
  · exact absurd h (by simp)
  · rename_i target hf
    simp only [Except.ok.injEq] at h
    subst h
    have htid : target.id = pid := by
      have h2 := List.find?_some hf
      simpa using h2
    have htmem : target ∈ db.pages := List.mem_of_find?_eq_some hf
    set survivors := db.pages.filter (fun p => !(p.id == pid)) with hsurv
    set ids := (sortByNumber (survivors.filter (fun p => p.chapterId == target.chapterId))).map
      (fun p => p.id) with hidsdef
    set g := fun p : Page =>
      if p.chapterId == target.chapterId then { p with number := (idxOf p.id ids : Int) + 1 }
      else p with hgdef
    have hgid : ∀ p, (g p).id = p.id := by
      intro p
      by_cases hc : p.chapterId = target.chapterId <;> simp [hgdef, hc]
    have hgcid : ∀ p, (g p).chapterId = p.chapterId := by
      intro p
      by_cases hc : p.chapterId = target.chapterId <;> simp [hgdef, hc]
    have hpredg : ∀ q : Int, ∀ p, ((g p).chapterId == q) = (p.chapterId == q) := by
      intro q p
      rw [hgcid]
    have hsubl : List.Sublist survivors db.pages := List.filter_sublist _
    have hmapid : (survivors.map g).map (fun p => p.id) = survivors.map (fun p => p.id) := by
      rw [List.map_map]
      exact List.map_congr_left (fun p _ => hgid p)
    have hsurvnd : (survivors.map (fun p => p.id)).Nodup :=
      List.Nodup.sublist (hsubl.map _) hndids
    have hA : ((survivors.map g).map (fun p => p.id)).Nodup := by
      rw [hmapid]
      exact hsurvnd
    have hB : ∀ p ∈ survivors.map g, p.id < db.nextPageId := by
      intro p hp
      obtain ⟨p0, hp0, rfl⟩ := List.mem_map.mp hp
      rw [hgid p0]
      exact hbound p0 (List.mem_of_mem_filter hp0)
    have hfm : ∀ q : Int, (survivors.map g).filter (fun p => p.chapterId == q) =
        (survivors.filter (fun p => p.chapterId == q)).map g :=
      fun q => filter_map_comm g _ survivors (hpredg q)
    have hother : ∀ q : Int, target.chapterId ≠ q →
        (survivors.map g).filter (fun p => p.chapterId == q) =
          db.pages.filter (fun p => p.chapterId == q) := by
      intro q hne
      rw [hfm q]
      have hcg : ∀ p ∈ survivors.filter (fun p => p.chapterId == q), g p = id p := by
        intro p hp
        have hpq2 : p.chapterId = q := by simpa using (List.mem_filter.mp hp).2
        have hne2 : ¬ p.chapterId = target.chapterId := by
          rw [hpq2]
          exact fun e => hne e.symm
        simp [hgdef, hne2]
      rw [List.map_congr_left hcg, List.map_id, hsurv, List.filter_filter]
      refine List.filter_congr ?_
      intro p hp
      by_cases hpq : (p.chapterId == q) = true
      · have hnid : p.id ≠ pid := by
          intro e
          have hpt : p = target :=
            List.inj_on_of_nodup_map hndids hp htmem (show p.id = target.id by rw [e, htid])
          have hpq2 : p.chapterId = q := by simpa using hpq
          exact hne (by rw [← hpt, hpq2])
        have hpid : (!(p.id == pid)) = true := by simpa using hnid
        rw [hpq, hpid]
        simp
      · have hpq' : (p.chapterId == q) = false := by
          cases hb : (p.chapterId == q)
          · rfl
          · exact absurd hb hpq
        rw [hpq']
        simp
    refine ⟨⟨hA, hB⟩, ?_, ?_⟩
    · by_cases hcase : target.chapterId = cid
      · subst hcase
        have hAnd : ((survivors.filter (fun p => p.chapterId == target.chapterId)).map
            (fun p => p.id)).Nodup :=
          List.Nodup.sublist ((List.filter_sublist _).map _) hsurvnd
        have hnum_eq : ((survivors.filter (fun p => p.chapterId == target.chapterId)).map g).map
            (fun p => p.number) =
            (survivors.filter (fun p => p.chapterId == target.chapterId)).map
              (fun p => (idxOf p.id ids : Int) + 1) := by
          rw [List.map_map]
          refine List.map_congr_left ?_
          intro p hp
          have hpc : p.chapterId = target.chapterId := by
            simpa using (List.mem_filter.mp hp).2
          simp [hgdef, hpc]
        simp only [pagesOf]
        rw [hfm, hnum_eq, List.length_map]
        exact renumber_numbers_perm _ hAnd
      · simp only [pagesOf]
        rw [hother cid hcase]
        exact hinv1
    · intro c hc hceq
      obtain ⟨c0, hc0, rfl⟩ := List.mem_map.mp hc
      by_cases hcc : (c0.id == target.chapterId) = true
      · have hcid2 : c0.id = target.chapterId := by simpa using hcc
        rw [if_pos hcc] at hceq
        have hceq3 : c0.id = cid := hceq
        have he : target.chapterId = cid := by rw [← hcid2]; exact hceq3
        subst he
        rw [if_pos hcc]
        simp only [pagesOf]
      · rw [if_neg hcc] at hceq
        have hne : target.chapterId ≠ cid := by
          intro e
          have hbt : (c0.id == target.chapterId) = true := by simp [hceq, e]
          exact hcc hbt
        have hlen : ((survivors.map g).filter (fun p => p.chapterId == cid)).length =
            (db.pages.filter (fun p => p.chapterId == cid)).length := by
          rw [hother cid hne]
        rw [if_neg hcc]
        simp only [pagesOf]
        rw [hlen]
        exact hinv2 c0 hc0 hceq

/-- The service add-page operation with an unset (auto-assigned) page
number preserves structural well-formedness and the dense-numbering /
page-count invariant of the target chapter: a failure at any stage
leaves the database untouched, and a successful insert appends the
number `N + 1` and recounts page_count to `N + 1`. -/
theorem AddPage_auto_inv (w : World) (cid : Int) (data : List Nat)
    (hwf : WF w.db) (hinv : chapterInv w.db cid) :
    WF (ChapterService.AddPage w { id := 0, chapterId := cid, number := 0, imageUrl := "" } data).1.db ∧
      chapterInv (ChapterService.AddPage w { id := 0, chapterId := cid, number := 0, imageUrl := "" } data).1.db cid := by
  obtain ⟨hndids, hbound⟩ := hwf
  obtain ⟨hinv1, hinv2⟩ := hinv
  unfold ChapterService.AddPage
  by_cases hc0 : cid = 0
  · rw [if_pos (show ({ id := 0, chapterId := cid, number := 0, imageUrl := "" } : Page).chapterId = 0 from hc0)]
    exact ⟨⟨hndids, hbound⟩, hinv1, hinv2⟩
  · rw [if_neg (show ¬ ({ id := 0, chapterId := cid, number := 0, imageUrl := "" } : Page).chapterId = 0 from hc0)]
    split
    · exact ⟨⟨hndids, hbound⟩, hinv1, hinv2⟩
    · rename_i ch hg
      rw [if_pos (show ({ id := 0, chapterId := cid, number := 0, imageUrl := "" } : Page).number ≤ 0 from le_rfl)]
      simp only []
      split
      · exact ⟨⟨hndids, hbound⟩, hinv1, hinv2⟩
      · rename_i fs1 rel hs
        split
        · exact ⟨⟨hndids, hbound⟩, hinv1, hinv2⟩
        · rename_i db1 id2 hadd
          unfold ChapterRepo.AddPage at hadd
          split at hadd
          · exact absurd hadd (by simp)
          · split at hadd
            · exact absurd hadd (by simp)
            · simp only [Except.ok.injEq, Prod.mk.injEq] at hadd
              obtain ⟨hdb, hid⟩ := hadd
              subst hdb
              simp only []
              constructor
              · constructor
                · simp only [List.map_append, List.map_cons, List.map_nil]
                  refine List.nodup_append.mpr ⟨hndids, List.nodup_singleton _, ?_⟩
                  intro a ha hb
                  rw [List.mem_singleton] at hb
                  obtain ⟨p0, hp0, rfl⟩ := List.mem_map.mp ha
                  have hlt := hbound p0 hp0
                  rw [hb] at hlt
                  exact absurd hlt (lt_irrefl _)
                · intro p hp
                  rcases List.mem_append.mp hp with hA | hB
                  · exact lt_trans (hbound p hA)
                      (show w.db.nextPageId < w.db.nextPageId + 1 by omega)
                  · rw [List.mem_singleton] at hB
                    subst hB
                    exact (by omega : w.db.nextPageId < w.db.nextPageId + 1)
              · constructor
                · simp only [pagesOf, List.filter_append, List.filter_cons, List.filter_nil,
                    beq_self_eq_true, if_true, List.map_append, List.map_cons, List.map_nil,
                    List.length_append, List.length_cons, List.length_nil]
                  have hlen2 : ((ChapterRepo.GetPages w.db cid).length : Int) =
                      ((w.db.pages.filter (fun p => p.chapterId == cid)).length : Int) := by
                    rw [length_GetPages]
                    rfl
                  rw [hlen2]
                  have hstep := hinv1.append_right
                    [((w.db.pages.filter (fun p => p.chapterId == cid)).length : Int) + 1]
                  refine ?_
                  unfold pagesOf at hstep hinv1
                  refine hstep.trans ?_
                  rw [show (w.db.pages.filter (fun p => p.chapterId == cid)).length + 0 + 1 =
                      (w.db.pages.filter (fun p => p.chapterId == cid)).length + 1 by omega]
                  rw [List.range_succ, List.map_append, List.map_cons, List.map_nil]
                · intro c hc hceq
                  obtain ⟨c0, hc0m, rfl⟩ := List.mem_map.mp hc
                  by_cases hcc : (c0.id == cid) = true
                  · rw [if_pos hcc] at hceq ⊢
                    simp only [pagesOf]
                  · rw [if_neg hcc] at hceq ⊢
                    exact absurd (by simpa using hceq) (by simpa using hcc)

/-- One administrative step (auto-numbered add, or delete) preserves
well-formedness and the chapter invariant. -/
theorem applyOp_inv (cid : Int) (w : World) (op : AdminOp)
    (hwf : WF w.db) (hinv : chapterInv w.db cid) :
    WF (applyOp cid w op).db ∧ chapterInv (applyOp cid w op).db cid := by
  cases op with
  | addPage data => exact AddPage_auto_inv w cid data hwf hinv
  | delPage pid =>
    unfold applyOp
    simp only []
    cases hd : ChapterRepo.DeletePage w.db pid with
    | ok db1 =>
      exact DeletePage_inv w.db pid cid db1 hwf hinv hd
    | error e =>
      exact ⟨hwf, hinv⟩

/-- C1 amended: for a chapter whose state satisfies the dense-numbering /
page-count invariant (in particular a chapter created empty), every
sequence of add-page operations with an unset (auto-assigned) page
number and delete-page operations, completed or failed, preserves it:
the chapter's page numbers are exactly {1, …, page_count} with no gaps
or duplicates, and page_count equals the true count of its page rows.
(Add-page with an explicit positive number is excluded: it can break the
density invariant, see the counterexample.) -/
theorem C1_amended_dense_invariant (cid : Int) (ops : List AdminOp) (w : World)
    (hwf : WF w.db) (hinv : chapterInv w.db cid) :
    WF (runOps cid w ops).db ∧ chapterInv (runOps cid w ops).db cid := by
  induction ops generalizing w with
  | nil => exact ⟨hwf, hinv⟩
  | cons op rest ih =>
    have hstep := applyOp_inv cid w op hwf hinv
    exact ih (applyOp cid w op) hstep.1 hstep.2

/-- C1 counterexample: starting from a chapter created empty (state
`emptyChapterWorld`, chapter 1 with no pages and page_count 0, where the
invariant holds), a single completed add-page call with the explicit
positive page number 2 succeeds and leaves the chapter with page-number
set {2} and page_count 1 — not the gap-free set {1} — so the claim's
invariant fails after a completed sequence that includes an explicit
positive add-page. -/
theorem C1_counterexample :
    chapterInv emptyChapterWorld.db 1 ∧
      (ChapterService.AddPage emptyChapterWorld
          { id := 0, chapterId := 1, number := 2, imageUrl := "" } [7]).2 = .ok 1 ∧
      ¬ chapterInv (ChapterService.AddPage emptyChapterWorld
          { id := 0, chapterId := 1, number := 2, imageUrl := "" } [7]).1.db 1 :=
  ⟨by decide, by decide, by decide⟩

/-- Witness for the amended C1: three auto-numbered adds then one delete
on the empty chapter, with the invariant checked at the start. -/
theorem C1_amended_witness :
    WF emptyChapterWorld.db ∧ chapterInv emptyChapterWorld.db 1 ∧
      (WF (runOps 1 emptyChapterWorld
          [.addPage [1], .addPage [2], .addPage [3], .delPage 2]).db ∧
        chapterInv (runOps 1 emptyChapterWorld
          [.addPage [1], .addPage [2], .addPage [3], .delPage 2]).db 1) :=
  ⟨by decide, by decide,
    C1_amended_dense_invariant 1 [.addPage [1], .addPage [2], .addPage [3], .delPage 2]
      emptyChapterWorld (by decide) (by decide)⟩
